import Mathlib

/-!
# FIRM_constants.h: the constants gate

A shallow embedding of `FIRM-Core/FIRM_constants/FIRM_constants.h` and of the
fragment of the C preprocessor that the header exercises.

The header is kept as its fifteen source lines (`FIRM_constants_h_text`).
Each line is classified by `parseLine` (translation phase 3: a line that is
only a `//` comment becomes blank; a directive line is recognised by its
leading `#` keyword) and the resulting directives are executed by `step` / `run`
(translation phase 4) over a macro table.
-/

namespace FIRM

/-! ## Data model -/

/-- One entry of the macro namespace: `#define name body` together with the
comment that was written on the definition line.  The preprocessor replaces
the comment by white space, so `provenance` never takes part in evaluation; it
is carried so that the header's provenance policy can be stated. -/
structure MacroDef where
  name : String
  body : String
  provenance : String
deriving DecidableEq

/-- The preprocessing directives of the modelled fragment.  `blank` is a line
that is empty after comment removal; `text` is any line that is not a
directive. -/
inductive Directive where
  | blank
  | ifdef (name : String)
  | ifndef (name : String)
  | endif
  | error (msg : String)
  | define (d : MacroDef)
  | undef (name : String)
  | text (line : String)
deriving DecidableEq

/-- Diagnostics that stop the translation of a unit.  `errorDirective` is what
an executed `#error` raises, with the directive's tokens as message;
`undeclared` is the compiler's complaint about an identifier that names
nothing. -/
inductive Diag where
  | errorDirective (msg : String)
  | endifWithoutIf
  | unterminatedConditional
  | undeclared (name : String)
deriving DecidableEq

/-- Preprocessor state: the macro table (most recent definition first), the
stack of open conditional groups (`true` = the group is being processed) and
the text lines passed on to the compiler proper. -/
structure PPState where
  macros : List MacroDef
  conds : List Bool
  out : List String
deriving DecidableEq

/-! ## Lexical layer -/

/-- Drop leading and trailing blanks. -/
def trimSpaces (cs : List Char) : List Char :=
  ((cs.dropWhile (fun c => c == ' ')).reverse.dropWhile (fun c => c == ' ')).reverse

/-- Split the rest of a `#define` line at the first comment opener. -/
def splitComment : List Char → List Char × List Char
  | [] => ([], [])
  | c :: rest =>
    match c, rest with
    | '/', '/' :: r => ([], r)
    | '/', '*' :: r => ([], r)
    | _, _ => ((c :: (splitComment rest).1), (splitComment rest).2)

/-- Remove the closing `*/` of a block comment, when there is one. -/
def stripClose (cs : List Char) : List Char :=
  match cs.reverse with
  | '/' :: '*' :: r => r.reverse
  | _ => cs

/-- Parse what follows `#define `: the macro name, the replacement text and
the comment on the line. -/
def parseDefine (cs : List Char) : MacroDef :=
  let name := cs.takeWhile (fun c => c != ' ')
  let rest := cs.dropWhile (fun c => c != ' ')
  let parts := splitComment rest
  { name := String.mk name
    body := String.mk (trimSpaces parts.1)
    provenance := String.mk (trimSpaces (stripClose (trimSpaces parts.2))) }

/-- Classify one source line. -/
def parseLine (s : String) : Directive :=
  let cs := s.toList.dropWhile (fun c => c == ' ')
  if cs.isEmpty then Directive.blank
  else if "//".toList.isPrefixOf cs then Directive.blank
  else if "#ifdef ".toList.isPrefixOf cs then Directive.ifdef (String.mk (trimSpaces (cs.drop 7)))
  else if "#ifndef ".toList.isPrefixOf cs then Directive.ifndef (String.mk (trimSpaces (cs.drop 8)))
  else if "#endif".toList.isPrefixOf cs then Directive.endif
  else if "#error ".toList.isPrefixOf cs then Directive.error (String.mk (cs.drop 7))
  else if "#define ".toList.isPrefixOf cs then Directive.define (parseDefine (cs.drop 8))
  else if "#undef ".toList.isPrefixOf cs then Directive.undef (String.mk (trimSpaces (cs.drop 7)))
  else Directive.text s

/-! ## The header -/

/-- The source text of `FIRM_constants.h`, line by line. -/
def FIRM_constants_h_text : List String :=
  [ "// FIRM_constants.h",
    "//",
    "// Macro namespace for derived constants. No numeric literals are permitted here",
    "// without provenance. Each macro must be populated by a generated header",
    "// produced from FIRM_derivations.py, which cites theorem/proof ids.",
    "//",
    "// Example (to be generated):",
    "// #define FIRM_PHASE_UNIT /* derived: 2π / n, proof id: THM-PHASE-001 */",
    "// #define FIRM_ECHO_THRESHOLD /* derived: saddle point of C(G), proof id: THM-THETA-001 */",
    "// #define FIRM_GRACE_IDEMPOTENT 1",
    "//",
    "// Attempting to include this header before generation should fail the build.",
    "#ifdef FIRM_CONSTANTS_UNDERIVED",
    "#error \"FIRM constants are not yet derived. Run derivation pipeline.\"",
    "#endif" ]

/-- The header as a directive sequence. -/
def FIRM_constants_h : List Directive :=
  FIRM_constants_h_text.map parseLine

/-- The sentinel macro name tested by the header. -/
def sentinel : String := "FIRM_CONSTANTS_UNDERIVED"

/-- The tokens of the header's `#error` directive. -/
def diagnosticText : String :=
  "\"FIRM constants are not yet derived. Run derivation pipeline.\""

/-! ## Directive execution -/

/-- Whether `name` is currently defined as a macro (`#ifdef` tests this and
nothing else: the replacement text is not looked at). -/
def isDefined (name : String) (macros : List MacroDef) : Bool :=
  macros.any (fun d => d.name == name)

/-- Whether the current position is in a group that is being processed. -/
def active (conds : List Bool) : Bool :=
  conds.all (fun b => b)

/-- Execute one directive.  Inside a skipped group only the nesting of
conditionals is tracked.  A `#define` of a name that is already defined
replaces the earlier definition. -/
def step (d : Directive) (st : PPState) : Except Diag PPState :=
  match d with
  | Directive.blank => Except.ok st
  | Directive.ifdef n =>
    Except.ok { st with conds := (active st.conds && isDefined n st.macros) :: st.conds }
  | Directive.ifndef n =>
    Except.ok { st with conds := (active st.conds && !isDefined n st.macros) :: st.conds }
  | Directive.endif =>
    match st.conds with
    | [] => Except.error Diag.endifWithoutIf
    | _ :: rest => Except.ok { st with conds := rest }
  | Directive.error msg =>
    if active st.conds then Except.error (Diag.errorDirective msg) else Except.ok st
  | Directive.define m =>
    if active st.conds then
      Except.ok { st with macros := m :: st.macros.filter (fun d => d.name != m.name) }
    else Except.ok st
  | Directive.undef n =>
    if active st.conds then
      Except.ok { st with macros := st.macros.filter (fun d => d.name != n) }
    else Except.ok st
  | Directive.text l =>
    if active st.conds then Except.ok { st with out := st.out ++ [l] } else Except.ok st

/-- Execute a sequence of directives, stopping at the first diagnostic. -/
def run : List Directive → PPState → Except Diag PPState
  | [], st => Except.ok st
  | d :: ds, st =>
    match step d st with
    | Except.error e => Except.error e
    | Except.ok st1 => run ds st1

/-- Process a whole file at an active position: its conditionals are its own
and must all be closed at its end. -/
def includeFile (file : List Directive) (st : PPState) : Except Diag PPState :=
  match run file { st with conds := [] } with
  | Except.error e => Except.error e
  | Except.ok st1 =>
    if st1.conds.isEmpty then Except.ok { st1 with conds := st.conds }
    else Except.error Diag.unterminatedConditional

/-- Evaluate the constants gate: `#include "FIRM_constants.h"`. -/
def includeConstants (st : PPState) : Except Diag PPState :=
  includeFile FIRM_constants_h st

/-- The diagnostic raised by the header's `#error`; the specification calls
it UndisclosedConstants. -/
def UndisclosedConstants : Diag :=
  Diag.errorDirective diagnosticText

/-! ## Translation units -/

/-- An item of an including translation unit: one of its own lines, or
`#include "FIRM_constants.h"`. -/
inductive UnitItem where
  | line (d : Directive)
  | includeConstants
deriving DecidableEq

/-- Execute one item of a unit; an `#include` in a skipped group is skipped. -/
def stepUnit (it : UnitItem) (st : PPState) : Except Diag PPState :=
  match it with
  | UnitItem.line d => step d st
  | UnitItem.includeConstants =>
    if active st.conds then includeConstants st else Except.ok st

/-- Execute the items of a unit in order, stopping at the first diagnostic. -/
def runUnit : List UnitItem → PPState → Except Diag PPState
  | [], st => Except.ok st
  | it :: its, st =>
    match stepUnit it st with
    | Except.error e => Except.error e
    | Except.ok st1 => runUnit its st1

/-- The state at the start of a unit: the macros given on the command line,
no open conditional, nothing emitted. -/
def PPState.initial (cmdline : List MacroDef) : PPState :=
  { macros := cmdline, conds := [], out := [] }

/-- The gate evaluated `n` times in a row. -/
def includeTimes : Nat → PPState → Except Diag PPState
  | 0, st => Except.ok st
  | n + 1, st =>
    match includeConstants st with
    | Except.error e => Except.error e
    | Except.ok st1 => includeTimes n st1

/-- Pass/fail outcome of an evaluation: `none` when it passes, the diagnostic
when it fails. -/
def outcome (r : Except Diag PPState) : Option Diag :=
  match r with
  | Except.ok _ => none
  | Except.error e => some e

/-- The two gate states, read off the gate itself: a state is `BLOCKED` when
evaluating the gate there fails and `PASSABLE` when it passes. -/
inductive GateState where
  | BLOCKED
  | PASSABLE
deriving DecidableEq

/-- The gate state of a preprocessor state. -/
def gateState (st : PPState) : GateState :=
  match includeConstants st with
  | Except.ok _ => GateState.PASSABLE
  | Except.error _ => GateState.BLOCKED

/-- A reference to a constant name after preprocessing: a defined macro is
replaced by its replacement text; any other name reaches the compiler as a
plain identifier, and since the header declares nothing the compiler reports
it as undeclared. -/
def resolve (macros : List MacroDef) (name : String) : Except Diag String :=
  match macros.find? (fun d => d.name == name) with
  | some d => Except.ok d.body
  | none => Except.error (Diag.undeclared name)

/-- Pass the gate, then refer to a constant name. -/
def referenceAfterGate (st : PPState) (name : String) : Except Diag String :=
  match includeConstants st with
  | Except.error e => Except.error e
  | Except.ok st1 => resolve st1.macros name

/-- The lines of a generated artifact that defines the given constants. -/
def artifactItems (defs : List MacroDef) : List UnitItem :=
  defs.map (fun d => UnitItem.line (Directive.define d))

/-! ## Basic facts about the header -/

/-- The header parses to twelve blank (comment) lines followed by the guard. -/
theorem FIRM_constants_h_directives :
    FIRM_constants_h =
      List.replicate 12 Directive.blank ++
        [Directive.ifdef sentinel, Directive.error diagnosticText, Directive.endif] := by
  decide

/-- Closed form of the gate. -/
theorem includeConstants_eq (st : PPState) :
    includeConstants st =
      if isDefined sentinel st.macros then Except.error (Diag.errorDirective diagnosticText)
      else Except.ok st := by
  unfold includeConstants includeFile
  rw [FIRM_constants_h_directives]
  cases h : isDefined sentinel st.macros <;> simp [run, step, active, h, List.replicate]

/-- The header contains no `#define` and no `#undef` of its own. -/
theorem FIRM_constants_h_defines_nothing (d : Directive) (hd : d ∈ FIRM_constants_h) :
    (∀ m, d ≠ Directive.define m) ∧ (∀ n, d ≠ Directive.undef n) := by
  rw [FIRM_constants_h_directives] at hd
  simp [List.replicate] at hd
  rcases hd with h | h | h | h <;> subst h <;> simp

/-- The gate state is decided by the sentinel alone. -/
theorem gateState_eq (st : PPState) :
    gateState st =
      if isDefined sentinel st.macros then GateState.BLOCKED else GateState.PASSABLE := by
  unfold gateState
  rw [includeConstants_eq]
  cases isDefined sentinel st.macros <;> simp

/-- Repeated evaluation from a state where the sentinel is undefined. -/
theorem includeTimes_of_undefined (n : Nat) (st : PPState)
    (h : isDefined sentinel st.macros = false) : includeTimes n st = Except.ok st := by
  induction n with
  | zero => rfl
  | succ k ih => simp [includeTimes, includeConstants_eq, h, ih]

/-- Repeated evaluation from a state where the sentinel is defined. -/
theorem includeTimes_of_defined (n : Nat) (st : PPState)
    (h : isDefined sentinel st.macros = true) :
    includeTimes (n + 1) st = Except.error (Diag.errorDirective diagnosticText) := by
  simp [includeTimes, includeConstants_eq, h]

/-! ## Facts about the macro table -/

/-- A name is undefined exactly when no table entry carries it. -/
theorem isDefined_eq_false_iff (n : String) (ms : List MacroDef) :
    isDefined n ms = false ↔ ms.filter (fun e => e.name == n) = [] := by
  induction ms with
  | nil => simp [isDefined]
  | cons x xs ih =>
    by_cases hx : x.name = n
    · simp [isDefined, List.filter, hx]
    · have hb : (x.name == n) = false := by simpa using hx
      simp only [isDefined, List.any_cons, hb, Bool.false_or, List.filter] at ih ⊢
      exact ih

/-- Removing a name from the table leaves every other name as it was. -/
theorem filter_filter_ne (n k : String) (hk : k ≠ n) (ms : List MacroDef) :
    (ms.filter (fun d => d.name != k)).filter (fun e => e.name == n) =
      ms.filter (fun e => e.name == n) := by
  induction ms with
  | nil => rfl
  | cons x xs ih =>
    by_cases hx : x.name = n
    · have h1 : (x.name != k) = true := by
        simp only [bne_iff_ne, ne_eq, hx]; exact fun h => hk h.symm
      have h2 : (x.name == n) = true := by simp [hx]
      simp only [List.filter, h1, h2, ih]
    · have h2 : (x.name == n) = false := by simpa using hx
      cases h1 : (x.name != k) <;> simp only [List.filter, h1, h2, ih]

/-- Removing a name from the table removes all of its entries. -/
theorem filter_filter_self (n : String) (ms : List MacroDef) :
    (ms.filter (fun d => d.name != n)).filter (fun e => e.name == n) = [] := by
  induction ms with
  | nil => rfl
  | cons x xs ih =>
    by_cases hx : x.name = n
    · have h1 : (x.name != n) = false := by simp [hx]
      simp only [List.filter, h1, ih]
    · have h1 : (x.name != n) = true := by simpa using hx
      have h2 : (x.name == n) = false := by simpa using hx
      simp only [List.filter, h1, h2, ih]

/-- When a name has exactly one entry, a reference finds that entry. -/
theorem find_of_filter_singleton (n : String) (d : MacroDef) (ms : List MacroDef)
    (h : ms.filter (fun e => e.name == n) = [d]) :
    ms.find? (fun e => e.name == n) = some d := by
  induction ms with
  | nil => simp at h
  | cons x xs ih =>
    cases hx : (x.name == n)
    · simp only [List.filter, hx] at h
      simp only [List.find?, hx]
      exact ih h
    · simp only [List.filter, hx] at h
      simp only [List.find?, hx]
      injection h with h1 _
      rw [h1]

/-! ## Facts about translation units -/

/-- Running a concatenation runs the first part, then the second. -/
theorem runUnit_append (xs ys : List UnitItem) (st : PPState) :
    runUnit (xs ++ ys) st =
      match runUnit xs st with
      | Except.error e => Except.error e
      | Except.ok st1 => runUnit ys st1 := by
  induction xs generalizing st with
  | nil => rfl
  | cons x xs ih =>
    simp only [List.cons_append, runUnit]
    cases stepUnit x st with
    | error e => rfl
    | ok st1 => exact ih st1

/-- At an active position the lines of a generated artifact always execute,
and they install the definitions one after the other. -/
theorem runUnit_artifactItems (defs : List MacroDef) (st : PPState)
    (hact : active st.conds = true) :
    runUnit (artifactItems defs) st =
      Except.ok { st with
        macros := defs.foldl (fun ms m => m :: ms.filter (fun d => d.name != m.name)) st.macros } := by
  induction defs generalizing st with
  | nil => rfl
  | cons x xs ih =>
    simp only [artifactItems, List.map_cons, runUnit, stepUnit, step, hact, if_true, List.foldl_cons]
    exact ih _ hact

/-- Definitions of other names leave the entries of a name untouched. -/
theorem filter_foldl_of_not_mem (n : String) (defs : List MacroDef) (ms : List MacroDef)
    (hn : n ∉ defs.map (fun d => d.name)) :
    (defs.foldl (fun ms m => m :: ms.filter (fun d => d.name != m.name)) ms).filter
        (fun e => e.name == n) =
      ms.filter (fun e => e.name == n) := by
  induction defs generalizing ms with
  | nil => rfl
  | cons x xs ih =>
    simp only [List.map_cons, List.mem_cons, not_or] at hn
    rw [List.foldl_cons, ih _ hn.2]
    have hx : (x.name == n) = false := by
      simp only [beq_eq_false_iff_ne, ne_eq]; exact fun h => hn.1 h.symm
    simp only [List.filter, hx]
    exact filter_filter_ne n x.name (fun h => hn.1 h.symm) ms

/-- A constant defined once by the artifact ends up with exactly one entry,
the artifact's. -/
theorem filter_foldl_of_mem (defs : List MacroDef) (ms : List MacroDef) (d : MacroDef)
    (hnd : (defs.map (fun d => d.name)).Nodup) (hd : d ∈ defs) :
    (defs.foldl (fun ms m => m :: ms.filter (fun d => d.name != m.name)) ms).filter
        (fun e => e.name == d.name) = [d] := by
  induction defs generalizing ms with
  | nil => simp at hd
  | cons x xs ih =>
    simp only [List.map_cons, List.nodup_cons] at hnd
    rw [List.foldl_cons]
    rcases List.mem_cons.mp hd with h | h
    · subst h
      rw [filter_foldl_of_not_mem d.name xs _ hnd.1]
      have hx : (d.name == d.name) = true := by simp
      simp only [List.filter, hx]
      rw [filter_filter_self]
    · exact ih _ hnd.2 h

/-- An item other than a `#define` of the sentinel cannot make the sentinel
become defined. -/
theorem stepUnit_keeps_undefined (it : UnitItem) (st st1 : PPState)
    (hst : isDefined sentinel st.macros = false)
    (hit : ∀ m, it = UnitItem.line (Directive.define m) → m.name ≠ sentinel)
    (hrun : stepUnit it st = Except.ok st1) :
    isDefined sentinel st1.macros = false := by
  cases it with
  | includeConstants =>
    simp only [stepUnit, includeConstants_eq, hst] at hrun
    split at hrun <;> simp at hrun <;> subst hrun <;> exact hst
  | line d =>
    cases d with
    | blank => simp [stepUnit, step] at hrun; subst hrun; exact hst
    | ifdef n => simp [stepUnit, step] at hrun; subst hrun; exact hst
    | ifndef n => simp [stepUnit, step] at hrun; subst hrun; exact hst
    | endif =>
      simp only [stepUnit, step] at hrun
      split at hrun
      · simp at hrun
      · simp at hrun; subst hrun; exact hst
    | error msg =>
      simp only [stepUnit, step] at hrun
      split at hrun
      · simp at hrun
      · simp at hrun; subst hrun; exact hst
    | text l =>
      simp only [stepUnit, step] at hrun
      split at hrun <;> simp at hrun <;> subst hrun <;> exact hst
    | undef n =>
      simp only [stepUnit, step] at hrun
      split at hrun
      · simp at hrun; subst hrun
        rw [isDefined_eq_false_iff] at hst ⊢
        by_cases hn : sentinel = n
        · subst hn; exact filter_filter_self _ _
        · rw [filter_filter_ne sentinel n (fun h => hn h.symm)]; exact hst
      · simp at hrun; subst hrun; exact hst
    | define m =>
      have hm : m.name ≠ sentinel := hit m rfl
      simp only [stepUnit, step] at hrun
      split at hrun
      · simp at hrun; subst hrun
        rw [isDefined_eq_false_iff] at hst ⊢
        have hb : (m.name == sentinel) = false := by simpa using hm
        simp only [List.filter, hb]
        rw [filter_filter_ne sentinel m.name hm]; exact hst
      · simp at hrun; subst hrun; exact hst

/-- A unit that never defines the sentinel keeps it undefined. -/
theorem runUnit_keeps_undefined (items : List UnitItem) (st st1 : PPState)
    (hst : isDefined sentinel st.macros = false)
    (hit : ∀ m, UnitItem.line (Directive.define m) ∈ items → m.name ≠ sentinel)
    (hrun : runUnit items st = Except.ok st1) :
    isDefined sentinel st1.macros = false := by
  induction items generalizing st with
  | nil => simp [runUnit] at hrun; subst hrun; exact hst
  | cons x xs ih =>
    simp only [runUnit] at hrun
    cases hx : stepUnit x st with
    | error e => simp [hx] at hrun
    | ok st2 =>
      simp only [hx] at hrun
      have h2 := stepUnit_keeps_undefined x st st2 hst
        (fun m hm => hit m (by rw [hm]; exact List.mem_cons_self _ _)) hx
      exact ih st2 h2 (fun m hm => hit m (List.mem_cons_of_mem _ hm)) hrun

/-! ## The claims -/

/-- C1: evaluating the gate fails if and only if `FIRM_CONSTANTS_UNDERIVED`
is defined at that point, whatever else the macro table holds; every failure is
the one diagnostic UndisclosedConstants, whose text is exactly the header's
`#error` tokens; a failing evaluation yields no state; and in Scenario A (only
the sentinel defined) the gate fails with UndisclosedConstants. -/
theorem gate_fails_iff_sentinel_defined (st : PPState) :
    ((∃ e, includeConstants st = Except.error e) ↔
        isDefined "FIRM_CONSTANTS_UNDERIVED" st.macros = true) ∧
    (∀ e, includeConstants st = Except.error e → e = UndisclosedConstants) ∧
    UndisclosedConstants =
      Diag.errorDirective "\"FIRM constants are not yet derived. Run derivation pipeline.\"" ∧
    (isDefined "FIRM_CONSTANTS_UNDERIVED" st.macros = true →
        ∀ r, includeConstants st ≠ Except.ok r) ∧
    includeConstants (PPState.initial [MacroDef.mk "FIRM_CONSTANTS_UNDERIVED" "" ""]) =
      Except.error UndisclosedConstants := by
  have hs : sentinel = "FIRM_CONSTANTS_UNDERIVED" := rfl
  rw [← hs, includeConstants_eq st]
  refine ⟨?_, ?_, rfl, ?_, ?_⟩
  · cases isDefined sentinel st.macros <;> simp
  · intro e he
    cases h : isDefined sentinel st.macros
    · simp [h] at he
    · simp [h] at he; rw [← he]; rfl
  · intro h r
    simp [h]
  · rw [includeConstants_eq]; rfl

/-- C1, at Scenario A: the sentinel is defined, the gate fails, and there is
no resulting state. -/
theorem gate_fails_iff_sentinel_defined_witness :
    isDefined "FIRM_CONSTANTS_UNDERIVED"
        (PPState.initial [MacroDef.mk "FIRM_CONSTANTS_UNDERIVED" "" ""]).macros = true ∧
    (∃ e, includeConstants (PPState.initial [MacroDef.mk "FIRM_CONSTANTS_UNDERIVED" "" ""]) =
        Except.error e) ∧
    (∀ r, includeConstants (PPState.initial [MacroDef.mk "FIRM_CONSTANTS_UNDERIVED" "" ""]) ≠
        Except.ok r) :=
  ⟨by decide,
   (gate_fails_iff_sentinel_defined
      (PPState.initial [MacroDef.mk "FIRM_CONSTANTS_UNDERIVED" "" ""])).1.mpr (by decide),
   (gate_fails_iff_sentinel_defined
      (PPState.initial [MacroDef.mk "FIRM_CONSTANTS_UNDERIVED" "" ""])).2.2.2.1 (by decide)⟩

/-- C2, the code at the failing input: before generation (no macro defined at
all, so no generated constant and no sentinel) including the header passes
the gate instead of failing the build. -/
theorem include_before_generation_passes :
    (PPState.initial []).macros = [] ∧
    includeConstants (PPState.initial []) = Except.ok (PPState.initial []) ∧
    outcome (includeConstants (PPState.initial [])) = none := by
  refine ⟨rfl, ?_, ?_⟩ <;> rw [includeConstants_eq] <;> rfl

/-- C3: when the sentinel is not defined the gate succeeds and returns the
state it was given (same macro table, same values, nothing emitted); the
header holds no `#define` and no `#undef`, and its three example definitions
are comment lines. -/
theorem gate_pass_leaves_namespace (st : PPState)
    (h : isDefined sentinel st.macros = false) :
    includeConstants st = Except.ok st ∧
    (∀ d ∈ FIRM_constants_h, (∀ m, d ≠ Directive.define m) ∧ (∀ n, d ≠ Directive.undef n)) ∧
    (FIRM_constants_h_text.drop 7).take 3 =
      [ "// #define FIRM_PHASE_UNIT /* derived: 2π / n, proof id: THM-PHASE-001 */",
        "// #define FIRM_ECHO_THRESHOLD /* derived: saddle point of C(G), proof id: THM-THETA-001 */",
        "// #define FIRM_GRACE_IDEMPOTENT 1" ] ∧
    ((FIRM_constants_h_text.drop 7).take 3).map parseLine =
      [Directive.blank, Directive.blank, Directive.blank] := by
  refine ⟨?_, FIRM_constants_h_defines_nothing, by decide, by decide⟩
  rw [includeConstants_eq, h]; rfl

/-- C3, at a table that holds `X = 5` and the three example names undefined. -/
theorem gate_pass_leaves_namespace_witness :
    isDefined sentinel
        (PPState.initial [MacroDef.mk "X" "5" "derived: proof id THM-001"]).macros = false ∧
    includeConstants (PPState.initial [MacroDef.mk "X" "5" "derived: proof id THM-001"]) =
      Except.ok (PPState.initial [MacroDef.mk "X" "5" "derived: proof id THM-001"]) :=
  ⟨by decide,
   (gate_pass_leaves_namespace
      (PPState.initial [MacroDef.mk "X" "5" "derived: proof id THM-001"]) (by decide)).1⟩

/-- C4: when the sentinel is absent (neither on the command line nor in the
artifact) and the artifact defines each constant name once, the unit made of
the artifact followed by the inclusion passes the gate, and afterwards every
constant of the artifact has exactly one table entry, the artifact's, and a
reference to its name resolves to the artifact's value. -/
theorem conforming_artifact_resolves (defs cmdline : List MacroDef)
    (hnd : (defs.map (fun d => d.name)).Nodup)
    (hs : sentinel ∉ defs.map (fun d => d.name))
    (hc : isDefined sentinel cmdline = false) :
    ∃ st1,
      runUnit (artifactItems defs ++ [UnitItem.includeConstants]) (PPState.initial cmdline) =
        Except.ok st1 ∧
      ∀ d ∈ defs,
        st1.macros.filter (fun e => e.name == d.name) = [d] ∧
        resolve st1.macros d.name = Except.ok d.body := by
  have hundef : isDefined sentinel
      (defs.foldl (fun ms m => m :: ms.filter (fun d => d.name != m.name)) cmdline) = false := by
    rw [isDefined_eq_false_iff, filter_foldl_of_not_mem sentinel defs cmdline hs,
      ← isDefined_eq_false_iff]
    exact hc
  refine ⟨{ PPState.initial cmdline with
      macros := defs.foldl (fun ms m => m :: ms.filter (fun d => d.name != m.name)) cmdline },
    ?_, ?_⟩
  · rw [runUnit_append, runUnit_artifactItems defs (PPState.initial cmdline) rfl]
    simp only [runUnit, stepUnit, PPState.initial, active, List.all_nil, if_true]
    rw [includeConstants_eq]
    simp only [hundef]
    rfl
  · intro d hd
    have hone := filter_foldl_of_mem defs cmdline d hnd hd
    refine ⟨hone, ?_⟩
    simp only [resolve]
    rw [find_of_filter_singleton d.name d _ hone]

/-- C4, at Scenario C: the artifact is the single line
`#define X 5 // derived: proof id THM-001`; the build passes the gate and `X`
resolves to `5`. -/
theorem conforming_artifact_resolves_witness :
    parseLine "#define X 5 // derived: proof id THM-001" =
      Directive.define (MacroDef.mk "X" "5" "derived: proof id THM-001") ∧
    ∃ st1,
      runUnit (artifactItems [MacroDef.mk "X" "5" "derived: proof id THM-001"] ++
          [UnitItem.includeConstants]) (PPState.initial []) = Except.ok st1 ∧
      resolve st1.macros "X" = Except.ok "5" := by
  refine ⟨by decide, ?_⟩
  obtain ⟨st1, hrun, hres⟩ :=
    conforming_artifact_resolves [MacroDef.mk "X" "5" "derived: proof id THM-001"] []
      (by decide) (by decide) (by decide)
  exact ⟨st1, hrun, (hres (MacroDef.mk "X" "5" "derived: proof id THM-001")
    (List.mem_singleton.mpr rfl)).2⟩

/-- C5: evaluating the gate `n + 1` times in a row has the outcome of
evaluating it once; a passing evaluation returns the state it was given, so it
neither defines nor undefines the sentinel; from a PASSABLE state any number
of inclusions pass; a unit started in a PASSABLE state can only reach a
BLOCKED state if one of its own lines defines the sentinel; and since the
header has no include guard, a second inclusion placed after such a line is
evaluated and fails. -/
theorem gate_idempotent (st : PPState) (n : Nat) :
    outcome (includeTimes (n + 1) st) = outcome (includeConstants st) ∧
    (∀ st1, includeConstants st = Except.ok st1 → st1 = st) ∧
    (gateState st = GateState.PASSABLE → includeTimes n st = Except.ok st) ∧
    (∀ items st1, gateState st = GateState.PASSABLE → runUnit items st = Except.ok st1 →
        gateState st1 = GateState.BLOCKED →
        ∃ m, UnitItem.line (Directive.define m) ∈ items ∧ m.name = sentinel) ∧
    runUnit [UnitItem.includeConstants, UnitItem.line (Directive.define (MacroDef.mk sentinel "" "")),
        UnitItem.includeConstants] (PPState.initial []) = Except.error UndisclosedConstants := by
  have hpass : ∀ s : PPState, gateState s = GateState.PASSABLE →
      isDefined sentinel s.macros = false := by
    intro s hs
    rw [gateState_eq] at hs
    cases h : isDefined sentinel s.macros
    · rfl
    · simp [h] at hs
  refine ⟨?_, ?_, ?_, ?_, ?_⟩
  · cases h : isDefined sentinel st.macros
    · rw [includeTimes_of_undefined (n + 1) st h, includeConstants_eq, h]; rfl
    · rw [includeTimes_of_defined n st h, includeConstants_eq, h]; rfl
  · intro st1 h1
    rw [includeConstants_eq] at h1
    cases h : isDefined sentinel st.macros
    · simp [h] at h1; exact h1.symm
    · simp [h] at h1
  · intro hp
    exact includeTimes_of_undefined n st (hpass st hp)
  · intro items st1 hp hrun hblocked
    by_contra hno
    have hkeep := runUnit_keeps_undefined items st st1 (hpass st hp)
      (fun m hm hname => hno ⟨m, hm, hname⟩) hrun
    rw [gateState_eq, hkeep] at hblocked
    simp at hblocked
  · simp only [runUnit, stepUnit, step, PPState.initial, active, List.all_nil, if_true,
      includeConstants_eq]
    rfl

/-- C5, at the empty unit state: it is PASSABLE and three inclusions pass. -/
theorem gate_idempotent_witness :
    gateState (PPState.initial []) = GateState.PASSABLE ∧
    includeTimes 3 (PPState.initial []) = Except.ok (PPState.initial []) :=
  ⟨by rw [gateState_eq]; rfl,
   (gate_idempotent (PPState.initial []) 3).2.2.1 (by rw [gateState_eq]; rfl)⟩

/-- C6 (Scenario B): with the sentinel undefined and no macro defined the
gate passes; a reference to any name after the gate then fails as an
undeclared identifier, which is not UndisclosedConstants and is never what
the gate raises. -/
theorem empty_namespace_reference (name : String) :
    includeConstants (PPState.initial []) = Except.ok (PPState.initial []) ∧
    referenceAfterGate (PPState.initial []) name = Except.error (Diag.undeclared name) ∧
    Diag.undeclared name ≠ UndisclosedConstants ∧
    (∀ st, includeConstants st ≠ Except.error (Diag.undeclared name)) := by
  have h0 : includeConstants (PPState.initial []) = Except.ok (PPState.initial []) := by
    rw [includeConstants_eq]; rfl
  refine ⟨h0, ?_, ?_, ?_⟩
  · simp only [referenceAfterGate, h0]
    rfl
  · simp [UndisclosedConstants]
  · intro st
    rw [includeConstants_eq]
    cases isDefined sentinel st.macros <;> simp

/-- C7, as stated, fails: the header's own example line
`#define FIRM_GRACE_IDEMPOTENT 1` is a definition with a numeric literal and
an empty provenance; a unit made of that line and the inclusion passes the
gate, and the definition is in the table afterwards. -/
theorem provenance_not_enforced :
    parseLine "#define FIRM_GRACE_IDEMPOTENT 1" =
      Directive.define (MacroDef.mk "FIRM_GRACE_IDEMPOTENT" "1" "") ∧
    runUnit [UnitItem.line (parseLine "#define FIRM_GRACE_IDEMPOTENT 1"),
        UnitItem.includeConstants] (PPState.initial []) =
      Except.ok (PPState.initial [MacroDef.mk "FIRM_GRACE_IDEMPOTENT" "1" ""]) ∧
    ¬ (∀ d ∈ (PPState.initial [MacroDef.mk "FIRM_GRACE_IDEMPOTENT" "1" ""]).macros,
        d.provenance ≠ "") := by
  have hparse : parseLine "#define FIRM_GRACE_IDEMPOTENT 1" =
      Directive.define (MacroDef.mk "FIRM_GRACE_IDEMPOTENT" "1" "") := by decide
  refine ⟨hparse, ?_, by decide⟩
  rw [hparse]
  simp only [runUnit, stepUnit, step, PPState.initial, active, List.all_nil, if_true,
    includeConstants_eq]
  rfl

/-- C7, amended: the gate neither checks nor alters provenance.  When the
sentinel is undefined and every definition in the table before the gate
carries a non-empty provenance, the gate passes, the table is unchanged, and
every definition after the gate carries a non-empty provenance. -/
theorem gate_preserves_provenance (st : PPState)
    (hs : isDefined sentinel st.macros = false)
    (hprov : ∀ d ∈ st.macros, d.provenance ≠ "") :
    ∃ st1, includeConstants st = Except.ok st1 ∧ st1.macros = st.macros ∧
      ∀ d ∈ st1.macros, d.provenance ≠ "" := by
  refine ⟨st, ?_, rfl, hprov⟩
  rw [includeConstants_eq, hs]; rfl

/-- C7 amended, at the table holding `X = 5` with provenance
`derived: proof id THM-001`. -/
theorem gate_preserves_provenance_witness :
    ∃ st1, includeConstants (PPState.initial [MacroDef.mk "X" "5" "derived: proof id THM-001"]) =
        Except.ok st1 ∧
      st1.macros = [MacroDef.mk "X" "5" "derived: proof id THM-001"] ∧
      ∀ d ∈ st1.macros, d.provenance ≠ "" :=
  gate_preserves_provenance (PPState.initial [MacroDef.mk "X" "5" "derived: proof id THM-001"])
    (by decide) (by decide)

/-- C8: two states that agree on whether the sentinel is defined get the same
outcome from the gate (same pass/fail, same diagnostic), whatever their
other definitions; and a table in which the sentinel is defined blocks the build
whatever its replacement text, in particular empty, `1` and `0`. -/
theorem sentinel_sole_control (st1 st2 : PPState)
    (h : isDefined sentinel st1.macros = isDefined sentinel st2.macros) :
    outcome (includeConstants st1) = outcome (includeConstants st2) ∧
    (∀ body prov rest conds out,
      outcome (includeConstants (PPState.mk (MacroDef.mk sentinel body prov :: rest) conds out)) =
        some UndisclosedConstants) ∧
    outcome (includeConstants (PPState.initial [MacroDef.mk sentinel "" ""])) =
      some UndisclosedConstants ∧
    outcome (includeConstants (PPState.initial [MacroDef.mk sentinel "1" ""])) =
      some UndisclosedConstants ∧
    outcome (includeConstants (PPState.initial [MacroDef.mk sentinel "0" ""])) =
      some UndisclosedConstants := by
  have hdef : ∀ body prov rest conds out,
      outcome (includeConstants (PPState.mk (MacroDef.mk sentinel body prov :: rest) conds out)) =
        some UndisclosedConstants := by
    intro body prov rest conds out
    rw [includeConstants_eq]
    simp [isDefined, outcome, UndisclosedConstants]
  refine ⟨?_, hdef, hdef _ _ _ _ _, hdef _ _ _ _ _, hdef _ _ _ _ _⟩
  rw [includeConstants_eq, includeConstants_eq, h]
  cases isDefined sentinel st2.macros <;> rfl

/-- C8, at two tables with different constants and no sentinel. -/
theorem sentinel_sole_control_witness :
    isDefined sentinel (PPState.initial [MacroDef.mk "X" "5" "derived: proof id THM-001"]).macros =
      isDefined sentinel (PPState.initial [MacroDef.mk "Y" "7" ""]).macros ∧
    outcome (includeConstants (PPState.initial [MacroDef.mk "X" "5" "derived: proof id THM-001"])) =
      outcome (includeConstants (PPState.initial [MacroDef.mk "Y" "7" ""])) :=
  ⟨by decide,
   (sentinel_sole_control (PPState.initial [MacroDef.mk "X" "5" "derived: proof id THM-001"])
      (PPState.initial [MacroDef.mk "Y" "7" ""]) (by decide)).1⟩

end FIRM
